import Mathlib

/-!
Shallow embedding of the GuC Additional-Data-Struct builder
(`drivers/gpu/drm/i915/intel_guc_ads.c`) and of the per-engine reset
isolation selftest (`drivers/gpu/drm/i915/selftests/intel_shit.c`).

Machine integers are modelled as `Nat` with explicit `% 2 ^ 32` where
u32 wrap-around matters.  Constants that live in headers of the same
repository that are not present under `src/` (intel_guc_fwif.h,
intel_lrc.h, i915_reg.h) are introduced as explicitly modelled
definitions; the claims settled against them do not depend on the
particular numeric values beyond what the in-tree comments state.
-/

namespace I915

/-- Page size used throughout i915: 4 KiB. -/
def PAGE_SIZE : Nat := 4096

/-- `PAGE_ALIGN(n)`: round `n` up to the next multiple of `PAGE_SIZE`. -/
def PAGE_ALIGN (n : Nat) : Nat := ((n + PAGE_SIZE - 1) / PAGE_SIZE) * PAGE_SIZE

/-- Modulus of u32 arithmetic. -/
def U32_MOD : Nat := 2 ^ 32

/-! ## Golden-context resume address and restorable state size
(intel_guc_ads.c lines 86, 108-109, 200-213) -/

/-- `LR_HW_CONTEXT_SIZE` (intel_guc_ads.c:86): the first 80 dwords of the
register state context, containing the execlists and ppgtt registers. -/
def LR_HW_CONTEXT_SIZE : Nat := 80 * 4

/-- Modelled from the spec: `LRC_HEADER_PAGES` is defined in intel_lrc.h,
which is not under `src/`.  The in-tree comment at intel_guc_ads.c:197
("we have to skip our header (1 page), because our GuC shared data is
there") fixes its value to one page. -/
def LRC_HEADER_PAGES : Nat := 1

/-- Modelled from the spec: `LRC_PPHWSP_SZ` (size in pages of the
per-process hardware status page) is defined in intel_lrc.h, which is not
under `src/`; the in-tree comment at intel_guc_ads.c:208 ("skipping the
first page [PPHWSP]") fixes it to one page. -/
def LRC_PPHWSP_SZ : Nat := 1

/-- `skipped_offset` (intel_guc_ads.c:108): `LRC_HEADER_PAGES * PAGE_SIZE`. -/
def skipped_offset : Nat := LRC_HEADER_PAGES * PAGE_SIZE

/-- `skipped_size` (intel_guc_ads.c:109):
`LRC_PPHWSP_SZ * PAGE_SIZE + LR_HW_CONTEXT_SIZE`. -/
def skipped_size : Nat := LRC_PPHWSP_SZ * PAGE_SIZE + LR_HW_CONTEXT_SIZE

/-- `blob->ads.golden_context_lrca` (intel_guc_ads.c:202-203): the GGTT
offset of the pinned kernel context plus `skipped_offset`, in u32
arithmetic. -/
def golden_context_lrca (kernel_ctx_offset : Nat) : Nat :=
  (kernel_ctx_offset + skipped_offset) % U32_MOD

/-- `blob->ads.eng_state_size[...]` (intel_guc_ads.c:211-213): the engine
context size minus `skipped_size`, in u32 arithmetic (`a - b` on u32 is
`(a + 2^32 - b) % 2^32` for `b < 2^32`). -/
def eng_state_size (context_size : Nat) : Nat :=
  (context_size + (U32_MOD - skipped_size)) % U32_MOD

/-- The header skip as the spec words it: one page plus 80 dwords.
This follows the spec text, not the source; it is kept to compare the
spec against the source computation. -/
def header_skip_spec : Nat := PAGE_SIZE + 80 * 4

/-- The resume address as the spec words it: pinned context address plus
`header_skip_spec` (comparison definition, from the spec words). -/
def resume_address_spec (kernel_ctx_offset : Nat) : Nat :=
  (kernel_ctx_offset + header_skip_spec) % U32_MOD

/-- The restorable state size as the spec words it: context size minus
(PPHWSP pages times page size plus `header_skip_spec`) (comparison
definition, from the spec words). -/
def eng_state_size_spec (context_size : Nat) : Nat :=
  (context_size + (U32_MOD - (LRC_PPHWSP_SZ * PAGE_SIZE + header_skip_spec))) % U32_MOD

/-! ## Register save/restore list (GUC_ADD_MMIO_REG_ADS, intel_guc_ads.c:70-80) -/

/-- One `guc_mmio_reg` entry: offset, flags, value (all u32). -/
structure GucMmioReg where
  offset : Nat
  flags : Nat
  value : Nat
deriving Repr, DecidableEq

/-- A `guc_mmio_regset` node: a fixed backing array of entries, of which
the first `number_of_registers` are in use.  The backing array length
plays the role of `GUC_REGSET_MAX_REGISTERS` sized storage. -/
structure GucMmioRegset where
  registers : List GucMmioReg
  number_of_registers : Nat
deriving Repr, DecidableEq

/-- A regset whose backing storage of `cap` entries is zero-filled and
whose count is zero (the ads gem object pages start out zeroed). -/
def zeroRegset (cap : Nat) : GucMmioRegset :=
  { registers := List.replicate cap ⟨0, 0, 0⟩, number_of_registers := 0 }

/-- `GUC_ADD_MMIO_REG_ADS(node, reg_addr, flags, defvalue)`
(intel_guc_ads.c:70-80) with capacity `cap` standing for
`GUC_REGSET_MAX_REGISTERS`: if the node is full the entry is dropped and
the `WARN_ON` truncation fires (second component `true`); otherwise
offset and flags are stored, the value field is written only when
`defvalue` is nonzero, and the count is incremented. -/
def addMmioRegAds (cap : Nat) (node : GucMmioRegset)
    (reg_addr flags defvalue : Nat) : GucMmioRegset × Bool :=
  let count := node.number_of_registers
  if cap ≤ count then (node, true)
  else
    let old := node.registers.getD count ⟨0, 0, 0⟩
    let ent : GucMmioReg :=
      { offset := reg_addr, flags := flags,
        value := if defvalue ≠ 0 then defvalue else old.value }
    ({ registers := node.registers.set count ent,
       number_of_registers := count + 1 }, false)

/-- A requested register addition: the three macro arguments. -/
structure RegReq where
  reg_addr : Nat
  flags : Nat
  defvalue : Nat
deriving Repr, DecidableEq

/-- The entry that a successful `GUC_ADD_MMIO_REG_ADS` call stores into a
slot previously holding `old`. -/
def appliedReg (old : GucMmioReg) (r : RegReq) : GucMmioReg :=
  { offset := r.reg_addr, flags := r.flags,
    value := if r.defvalue ≠ 0 then r.defvalue else old.value }

/-- Run a sequence of `GUC_ADD_MMIO_REG_ADS` calls; the second component
counts how many of them fired the truncation warning. -/
def addManyRegs (cap : Nat) (node : GucMmioRegset) :
    List RegReq → GucMmioRegset × Nat
  | [] => (node, 0)
  | r :: rs =>
    let out := addMmioRegAds cap node r.reg_addr r.flags r.defvalue
    let rest := addManyRegs cap out.1 rs
    (rest.1, (if out.2 then 1 else 0) + rest.2)

/-! ## Per-engine register list construction (intel_guc_ads.c:127-172) -/

/-- Modelled from the spec: `GUC_REGSET_ENGINERESET` flag bit from
intel_guc_fwif.h, which is not under `src/` (spec 6: flags bitmask
`ENGINE_RESET`).  The claims do not depend on its numeric value. -/
def GUC_REGSET_ENGINERESET : Nat := 2

/-- Modelled from the spec: `GUC_REGSET_SAVE_DEFAULT_VALUE` flag bit from
intel_guc_fwif.h (spec 6: `SAVE_DEFAULT_VALUE`). -/
def GUC_REGSET_SAVE_DEFAULT_VALUE : Nat := 4

/-- Modelled from the spec: `GUC_REGSET_SAVE_CURRENT_VALUE` flag bit from
intel_guc_fwif.h (spec 6: `SAVE_CURRENT_VALUE`). -/
def GUC_REGSET_SAVE_CURRENT_VALUE : Nat := 8

/-- Modelled from the spec: `RING_HWS_PGA(base)`, the hardware status
page address register, from i915_reg.h (not under `src/`). -/
def RING_HWS_PGA (base : Nat) : Nat := base + 0x80

/-- Modelled from the spec: the `RING_MODE_GEN7` ring/execution mode
register offset, from i915_reg.h (not under `src/`). -/
def RING_MODE_GEN7 (base : Nat) : Nat := base + 0x29c

/-- Modelled from the spec: `RING_IMR(base)`, the interrupt mask
register, from i915_reg.h (not under `src/`). -/
def RING_IMR (base : Nat) : Nat := base + 0xa8

/-- Modelled from the spec: `GFX_RUN_LIST_ENABLE` bit (execution-list
mode enable) from i915_reg.h (not under `src/`). -/
def GFX_RUN_LIST_ENABLE : Nat := 2 ^ 15

/-- Modelled from the spec: `GFX_INTERRUPT_STEERING` bit (route
interrupts to the GuC) from i915_reg.h (not under `src/`). -/
def GFX_INTERRUPT_STEERING : Nat := 2 ^ 14

/-- The per-engine inputs of the register-list construction loop: the
engine mmio base, whether the engine is the render engine (`RCS`), the
live value `I915_READ(RING_MODE_GEN7(engine))` at build time, and the
`(addr, value)` pairs of `dev_priv->workarounds.guc_reg`. -/
structure EngineBuild where
  mmio_base : Nat
  is_rcs : Bool
  ring_mode_value : Nat
  guc_workarounds : List (Nat × Nat)
deriving Repr, DecidableEq

/-- The sequence of `GUC_ADD_MMIO_REG_ADS` calls issued for one engine by
intel_guc_ads.c:138-169, in source order: HWS_PGA (current value),
RING_MODE_GEN7 (default value, read-modify-merge), RING_IMR (current
value), then, for the render engine only, the GuC workaround pairs
(default value). -/
def engineRegRequests (e : EngineBuild) : List RegReq :=
  ⟨RING_HWS_PGA e.mmio_base,
    GUC_REGSET_ENGINERESET ||| GUC_REGSET_SAVE_CURRENT_VALUE, 0⟩ ::
  ⟨RING_MODE_GEN7 e.mmio_base,
    GUC_REGSET_ENGINERESET ||| GUC_REGSET_SAVE_DEFAULT_VALUE,
    e.ring_mode_value ||| GFX_RUN_LIST_ENABLE ||| GFX_INTERRUPT_STEERING |||
      (0xFFFF <<< 16)⟩ ::
  ⟨RING_IMR e.mmio_base,
    GUC_REGSET_ENGINERESET ||| GUC_REGSET_SAVE_CURRENT_VALUE, 0⟩ ::
  (if e.is_rcs then
    e.guc_workarounds.map fun w =>
      ⟨w.1, GUC_REGSET_ENGINERESET ||| GUC_REGSET_SAVE_DEFAULT_VALUE, w.2⟩
  else [])

/-- The register save list built for one engine: the requests folded into
a zeroed regset of capacity `cap`. -/
def buildEngineRegset (cap : Nat) (e : EngineBuild) : GucMmioRegset × Nat :=
  addManyRegs cap (zeroRegset cap) (engineRegRequests e)

/-! ## Scheduling policies (guc_policy_init / guc_policies_init,
intel_guc_ads.c:37-62) -/

/-- Modelled from the spec: `POLICY_DEFAULT_EXECUTION_QUANTUM_US` from
intel_guc_fwif.h (not under `src/`). -/
def POLICY_DEFAULT_EXECUTION_QUANTUM_US : Nat := 1000000

/-- Modelled from the spec: `POLICY_DEFAULT_PREEMPTION_TIME_US` from
intel_guc_fwif.h (not under `src/`). -/
def POLICY_DEFAULT_PREEMPTION_TIME_US : Nat := 500000

/-- Modelled from the spec: `POLICY_DEFAULT_FAULT_TIME_US` from
intel_guc_fwif.h (not under `src/`). -/
def POLICY_DEFAULT_FAULT_TIME_US : Nat := 250000

/-- Modelled from the spec: `POLICY_DEFAULT_DPC_PROMOTE_TIME_US` from
intel_guc_fwif.h (not under `src/`). -/
def POLICY_DEFAULT_DPC_PROMOTE_TIME_US : Nat := 500000

/-- Modelled from the spec: `POLICY_MAX_NUM_WI` from intel_guc_fwif.h
(not under `src/`). -/
def POLICY_MAX_NUM_WI : Nat := 15

/-- Modelled from the spec: `GUC_CLIENT_PRIORITY_NUM` (number of client
priority levels) from intel_guc_fwif.h (not under `src/`). -/
def GUC_CLIENT_PRIORITY_NUM : Nat := 4

/-- Modelled from the spec: `GUC_RENDER_ENGINE` (first GuC engine id)
from intel_guc_fwif.h (not under `src/`). -/
def GUC_RENDER_ENGINE : Nat := 0

/-- Modelled from the spec: `GUC_MAX_ENGINES_NUM` from intel_guc_fwif.h
(not under `src/`). -/
def GUC_MAX_ENGINES_NUM : Nat := 5

/-- One observable store performed by `guc_policies_init`. -/
inductive PolicyWrite where
  | dpcPromoteTime (v : Nat)
  | maxNumWorkItems (v : Nat)
  | cell (p i quantum preempt fault flags : Nat)
  | isValid (v : Nat)
deriving Repr, DecidableEq

/-- The store sequence performed by `guc_policies_init`
(intel_guc_ads.c:45-62), in source order: the two table-level fields,
then one `guc_policy_init` per (priority, engine) cell, then the
`is_valid` flag. -/
def guc_policies_init_trace : List PolicyWrite :=
  PolicyWrite.dpcPromoteTime POLICY_DEFAULT_DPC_PROMOTE_TIME_US ::
  PolicyWrite.maxNumWorkItems POLICY_MAX_NUM_WI ::
  (((List.range GUC_CLIENT_PRIORITY_NUM).flatMap fun p =>
    (List.range' GUC_RENDER_ENGINE (GUC_MAX_ENGINES_NUM - GUC_RENDER_ENGINE)).map
      fun i =>
        PolicyWrite.cell p i POLICY_DEFAULT_EXECUTION_QUANTUM_US
          POLICY_DEFAULT_PREEMPTION_TIME_US POLICY_DEFAULT_FAULT_TIME_US 0)
  ++ [PolicyWrite.isValid 1])

/-- Whether a write is a (priority, engine) cell write. -/
def isCellWrite : PolicyWrite → Bool
  | .cell .. => true
  | _ => false

/-- Whether a write is one of the two table-level field writes. -/
def isTableLevelWrite : PolicyWrite → Bool
  | .dpcPromoteTime _ => true
  | .maxNumWorkItems _ => true
  | _ => false

/-- Whether a write is the validity-flag write. -/
def isValidWrite : PolicyWrite → Bool
  | .isValid _ => true
  | _ => false

/-- The ordering the claim asserts (comparison definition, from the spec
words): every cell write occurs strictly before every table-level write. -/
def cellsBeforeTableLevel (tr : List PolicyWrite) : Bool :=
  (List.range tr.length).all fun j =>
    (List.range tr.length).all fun k =>
      !(isCellWrite (tr.getD j (PolicyWrite.isValid 0))) ||
      !(isTableLevelWrite (tr.getD k (PolicyWrite.isValid 0))) ||
      decide (j < k)

/-- The publish-after-complete shape of the trace: the validity write is
the last write, occurs only there, and every cell write and both
table-level writes occur before it. -/
def policiesPublishAfterComplete (tr : List PolicyWrite) : Bool :=
  (tr.getLast? == some (PolicyWrite.isValid 1))
  && tr.dropLast.all (fun w => !isValidWrite w)
  && ((List.range GUC_CLIENT_PRIORITY_NUM).all fun p =>
        (List.range' GUC_RENDER_ENGINE (GUC_MAX_ENGINES_NUM - GUC_RENDER_ENGINE)).all
          fun i =>
            tr.dropLast.contains
              (PolicyWrite.cell p i POLICY_DEFAULT_EXECUTION_QUANTUM_US
                POLICY_DEFAULT_PREEMPTION_TIME_US POLICY_DEFAULT_FAULT_TIME_US 0))
  && tr.dropLast.contains (PolicyWrite.dpcPromoteTime POLICY_DEFAULT_DPC_PROMOTE_TIME_US)
  && tr.dropLast.contains (PolicyWrite.maxNumWorkItems POLICY_MAX_NUM_WI)

/-! ## Descriptor blob layout (intel_guc_ads.c:99-104, 215-218)

The ads gem object holds the packed struct
`{ guc_ads ads; guc_policies policies; guc_mmio_reg_state reg_state;
   u8 reg_state_buffer[GUC_S3_SAVE_SPACE_PAGES * PAGE_SIZE]; } __packed`.
The sizes of the three fwif structs live in intel_guc_fwif.h, which is
not under `src/`; the layout facts below are parametric in them. -/

/-- Byte sizes of the three fwif structs making up the blob together
with the `reg_state_buffer` byte size
(`GUC_S3_SAVE_SPACE_PAGES * PAGE_SIZE`). -/
structure AdsBlobSizes where
  ads_bytes : Nat
  policies_bytes : Nat
  reg_state_bytes : Nat
  reg_state_buffer_bytes : Nat
deriving Repr, DecidableEq

/-- Packed offset of `blob->policies`. -/
def off_policies (s : AdsBlobSizes) : Nat := s.ads_bytes

/-- Packed offset of `blob->reg_state`. -/
def off_reg_state (s : AdsBlobSizes) : Nat := s.ads_bytes + s.policies_bytes

/-- Packed offset of `blob->reg_state_buffer`. -/
def off_reg_state_buffer (s : AdsBlobSizes) : Nat :=
  s.ads_bytes + s.policies_bytes + s.reg_state_bytes

/-- `sizeof(*blob)`: total packed size of the blob struct. -/
def blob_bytes (s : AdsBlobSizes) : Nat :=
  off_reg_state_buffer s + s.reg_state_buffer_bytes

/-- Size of the backing region allocated at intel_guc_ads.c:114:
`PAGE_ALIGN(sizeof(*blob))`. -/
def region_bytes (s : AdsBlobSizes) : Nat := PAGE_ALIGN (blob_bytes s)

/-- `blob->ads.scheduler_policies` (intel_guc_ads.c:216):
`base + ptr_offset(blob, policies)`. -/
def scheduler_policies_ptr (base : Nat) (s : AdsBlobSizes) : Nat :=
  base + off_policies s

/-- `blob->ads.reg_state_buffer` (intel_guc_ads.c:217):
`base + ptr_offset(blob, reg_state_buffer)`. -/
def reg_state_buffer_ptr (base : Nat) (s : AdsBlobSizes) : Nat :=
  base + off_reg_state_buffer s

/-- `blob->ads.reg_state_addr` (intel_guc_ads.c:218):
`base + ptr_offset(blob, reg_state)`. -/
def reg_state_addr_ptr (base : Nat) (s : AdsBlobSizes) : Nat :=
  base + off_reg_state s

/-- The claim read as stated (comparison definition, from the spec
words): the three stored offsets are strictly increasing in the order
the spec lists them, namely policy table, then register-state buffer,
then whitelist+save-list region (`reg_state`). -/
def adsOffsetsIncreasingAsListed (base : Nat) (s : AdsBlobSizes) : Bool :=
  decide (scheduler_policies_ptr base s < reg_state_buffer_ptr base s)
  && decide (reg_state_buffer_ptr base s < reg_state_addr_ptr base s)

/-! ## Isolation harness reporting (intel_shit.c:94-192) -/

/-- The errno value 5 (the harness reports its negation). -/
def eioErr : Int := 5

/-- One unwind-loop body for an engine whose worker thread exists
(intel_shit.c:151-174): fold in the `kthread_stop` return value (only
when no error is pending yet), then flag the error if the engine's reset
count moved. -/
def igt_check_engine (err stopRet : Int) (before after : Nat) : Int :=
  let err1 := if stopRet ≠ 0 ∧ err = 0 then stopRet else err
  if before ≠ after then -eioErr else err1

/-- The unwind loop over engine ids, skipping the target engine (its
`threads` slot is NULL, intel_shit.c:119-120, 154-155). -/
def igt_unwind_loop (target : Nat) (stopRets : Nat → Int)
    (before after : Nat → Nat) : List Nat → Int → Int
  | [], err => err
  | t :: ts, err =>
    igt_unwind_loop target stopRets before after ts
      (if t = target then err
       else igt_check_engine err (stopRets t) (before t) (after t))

/-- The post-join reporting phase of `igt_active_engines` for one target
engine (intel_shit.c:150-180): the per-engine innocent checks followed
by the global reset count check. -/
def igt_report (target numEngines : Nat) (errIn : Int) (stopRets : Nat → Int)
    (before after : Nat → Nat) (globalBefore globalAfter : Nat) : Int :=
  let err := igt_unwind_loop target stopRets before after
    (List.range numEngines) errIn
  if globalBefore ≠ globalAfter then -eioErr else err

/-- The reporting the claim describes (comparison definition, from the
claim words): a violation is flagged when a non-target counter changed,
when the target counter did not grow by exactly `numResets`, or when the
global counter did not grow by `numResets`. -/
def igt_report_claim (target numEngines : Nat) (before after : Nat → Nat)
    (globalBefore globalAfter numResets : Nat) : Bool :=
  ((List.range numEngines).any fun t =>
    decide (t ≠ target) && decide (before t ≠ after t))
  || decide (after target ≠ before target + numResets)
  || decide (globalAfter ≠ globalBefore + numResets)

/-! ## Harness top level with its effect trace (intel_shit.c:94-224) -/

/-- Reset-capability bits of the platform, as queried by
`intel_has_reset_engine` and `intel_has_gpu_reset`. -/
structure Platform where
  has_gpu_reset : Bool
  has_reset_engine : Bool
deriving Repr, DecidableEq

/-- Externally observable actions of the harness. -/
inductive HarnessEvent where
  | readEngineCount (target active : Nat)
  | readGlobalCount (target : Nat)
  | spawnWorker (target active : Nat)
  | resetEngine (target : Nat)
  | stopWorker (target active : Nat)
deriving Repr, DecidableEq

/-- The environment the harness runs against: engine count, how many
reset iterations fit before each target's deadline, the `kthread_stop`
results, the per-engine reset counters as read before spawn and after
join, the global counter reads, and the terminal-wedge flag. -/
structure HarnessEnv where
  numEngines : Nat
  resetAttempts : Nat → Nat
  stopRets : Nat → Nat → Int
  beforeCounts : Nat → Nat → Nat
  afterCounts : Nat → Nat → Nat
  globalBefore : Nat → Nat
  globalAfter : Nat → Nat
  terminallyWedged : Bool

/-- The events of one target-engine pass of `igt_active_engines`
(intel_shit.c:109-186): global count read, per non-target engine a
counter read and a worker spawn, the reset loop, then per non-target
engine a stop and a counter re-read, then the global re-read. -/
def igt_target_events (doReset : Bool) (env : HarnessEnv) (target : Nat) :
    List HarnessEvent :=
  HarnessEvent.readGlobalCount target ::
  (((List.range env.numEngines).filter fun t => t ≠ target).flatMap fun t =>
    [HarnessEvent.readEngineCount target t, HarnessEvent.spawnWorker target t])
  ++ (if doReset then
        (List.range (env.resetAttempts target)).map fun _ =>
          HarnessEvent.resetEngine target
      else [])
  ++ (((List.range env.numEngines).filter fun t => t ≠ target).flatMap fun t =>
    [HarnessEvent.stopWorker target t, HarnessEvent.readEngineCount target t])
  ++ [HarnessEvent.readGlobalCount target]

/-- The error computed for one target-engine pass (hardware resets
themselves modelled as succeeding; the reporting phase is `igt_report`). -/
def igt_target_err (env : HarnessEnv) (target : Nat) : Int :=
  igt_report target env.numEngines 0 (env.stopRets target)
    (env.beforeCounts target) (env.afterCounts target)
    (env.globalBefore target) (env.globalAfter target)

/-- The outer `for_each_engine` loop of `igt_active_engines`, breaking
at the first target pass that reports an error (intel_shit.c:182-183). -/
def igt_outer_loop (doReset : Bool) (env : HarnessEnv) :
    List Nat → Int × List HarnessEvent
  | [] => (0, [])
  | t :: ts =>
    let err := igt_target_err env t
    let evs := igt_target_events doReset env t
    if err ≠ 0 then (err, evs)
    else
      let rest := igt_outer_loop doReset env ts
      (rest.1, evs ++ rest.2)

/-- `igt_active_engines(i915, do_reset)` (intel_shit.c:94-192): returns
`0` immediately, with no observable action, unless the platform supports
per-engine reset; otherwise runs every target pass and finally forces
an error if the device is terminally wedged. -/
def igt_active_engines (p : Platform) (doReset : Bool) (env : HarnessEnv) :
    Int × List HarnessEvent :=
  if !p.has_reset_engine then (0, [])
  else
    let out := igt_outer_loop doReset env (List.range env.numEngines)
    (if env.terminallyWedged then -eioErr else out.1, out.2)

/-- `intel_shit_live_selftests` (intel_shit.c:206-224): returns `0`
immediately unless the platform supports GPU reset; otherwise runs the
reset-enabled subtest then, if it passed, the reset-disabled subtest. -/
def intel_shit_live_selftests (p : Platform) (env : HarnessEnv) :
    Int × List HarnessEvent :=
  if !p.has_gpu_reset then (0, [])
  else
    let one := igt_active_engines p true env
    if one.1 ≠ 0 then one
    else
      let two := igt_active_engines p false env
      (two.1, one.2 ++ two.2)

/-! ## Worker double buffer (shit_active_engine, intel_shit.c:33-92) -/

/-- The worker loop state: the two request slots `rq[0]`, `rq[1]`
(holding allocation-order request ids), the loop counter `count`, and
the ids submitted but not yet completed.  Completion is modelled at the
latest allowed point, namely at the `i915_request_wait` call on the
request, so `outstanding` is the worst case over completion schedules. -/
structure WorkerState where
  rq0 : Option Nat
  rq1 : Option Nat
  count : Nat
  outstanding : List Nat
deriving Repr, DecidableEq

/-- The submit half of one loop iteration (intel_shit.c:63-78):
`idx = count++ & 1`, remember the old occupant of slot `idx`, allocate
and submit a new request into slot `idx`.  Returns the state right
after `i915_request_add` together with the old occupant. -/
def workerSubmit (s : WorkerState) : WorkerState × Option Nat :=
  let idx := s.count % 2
  let old := if idx = 0 then s.rq0 else s.rq1
  let newId := s.count
  ({ rq0 := if idx = 0 then some newId else s.rq0,
     rq1 := if idx = 1 then some newId else s.rq1,
     count := s.count + 1,
     outstanding := s.outstanding ++ [newId] }, old)

/-- The wait half of one loop iteration (intel_shit.c:80-83): if the
slot had an old occupant, wait for it to complete. -/
def workerWait (s : WorkerState) (old : Option Nat) : WorkerState :=
  match old with
  | none => s
  | some o => { s with outstanding := s.outstanding.erase o }

/-- One full loop iteration: submit into the slot, then wait on the
slot's previous occupant. -/
def workerIter (s : WorkerState) : WorkerState :=
  let out := workerSubmit s
  workerWait out.1 out.2

/-- Worker state at loop entry. -/
def workerInit : WorkerState := ⟨none, none, 0, []⟩

/-- Worker state after `n` full loop iterations. -/
def workerRun : Nat → WorkerState
  | 0 => workerInit
  | n + 1 => workerIter (workerRun n)

/-- Number of outstanding submissions at the mid-iteration point of
iteration `n`: right after `i915_request_add`, before the wait. -/
def midOutstanding (n : Nat) : Nat :=
  ((workerSubmit (workerRun n)).1.outstanding).length

/-- Number of outstanding submissions at the end of iteration `n`. -/
def endOutstanding (n : Nat) : Nat := (workerRun (n + 1)).outstanding.length

/-- Closed form of the worker state after `n` iterations. -/
def workerExpected : Nat → WorkerState
  | 0 => ⟨none, none, 0, []⟩
  | 1 => ⟨some 0, none, 1, [0]⟩
  | n + 2 =>
    ⟨some (if (n + 1) % 2 = 0 then n + 1 else n),
     some (if (n + 1) % 2 = 1 then n + 1 else n),
     n + 2, [n, n + 1]⟩

/-! ## Helper lemmas about the register save list -/

theorem addMmioRegAds_full (cap : Nat) (node : GucMmioRegset) (a f d : Nat)
    (h : cap ≤ node.number_of_registers) :
    addMmioRegAds cap node a f d = (node, true) := by
  unfold addMmioRegAds
  rw [if_pos h]

theorem addMmioRegAds_push (cap : Nat) (node : GucMmioRegset) (a f d : Nat)
    (h : node.number_of_registers < cap) :
    addMmioRegAds cap node a f d =
      ({ registers := node.registers.set node.number_of_registers
           (appliedReg (node.registers.getD node.number_of_registers ⟨0, 0, 0⟩)
             ⟨a, f, d⟩),
         number_of_registers := node.number_of_registers + 1 }, false) := by
  unfold addMmioRegAds
  rw [if_neg (Nat.not_le.mpr h)]
  rfl

theorem addManyRegs_nil (cap : Nat) (node : GucMmioRegset) :
    addManyRegs cap node [] = (node, 0) := rfl

theorem addManyRegs_cons (cap : Nat) (node : GucMmioRegset) (r : RegReq)
    (rs : List RegReq) :
    addManyRegs cap node (r :: rs) =
      ((addManyRegs cap
          (addMmioRegAds cap node r.reg_addr r.flags r.defvalue).1 rs).1,
       (if (addMmioRegAds cap node r.reg_addr r.flags r.defvalue).2 then 1 else 0)
         + (addManyRegs cap
             (addMmioRegAds cap node r.reg_addr r.flags r.defvalue).1 rs).2) := rfl

theorem addManyRegs_length (cap : Nat) (reqs : List RegReq) :
    ∀ node : GucMmioRegset,
      (addManyRegs cap node reqs).1.registers.length = node.registers.length := by
  induction reqs with
  | nil => intro node; rfl
  | cons r rs ih =>
    intro node
    rw [addManyRegs_cons]
    by_cases hc : cap ≤ node.number_of_registers
    · rw [addMmioRegAds_full cap node _ _ _ hc]
      exact ih node
    · rw [Nat.not_le] at hc
      rw [addMmioRegAds_push cap node _ _ _ hc]
      rw [ih]
      simp

theorem addManyRegs_count (cap : Nat) (reqs : List RegReq) :
    ∀ node : GucMmioRegset, node.number_of_registers ≤ cap →
      (addManyRegs cap node reqs).1.number_of_registers
        = min cap (node.number_of_registers + reqs.length) := by
  induction reqs with
  | nil => intro node h; rw [addManyRegs_nil]; simp; omega
  | cons r rs ih =>
    intro node h
    rw [addManyRegs_cons]
    by_cases hc : cap ≤ node.number_of_registers
    · rw [addMmioRegAds_full cap node _ _ _ hc]
      rw [ih node h]
      simp only [List.length_cons]
      omega
    · rw [Nat.not_le] at hc
      rw [addMmioRegAds_push cap node _ _ _ hc]
      rw [ih _ (by simpa using hc)]
      simp only [List.length_cons]
      omega

theorem addManyRegs_truncs (cap : Nat) (reqs : List RegReq) :
    ∀ node : GucMmioRegset, node.number_of_registers ≤ cap →
      (addManyRegs cap node reqs).2
        = node.number_of_registers + reqs.length - cap := by
  induction reqs with
  | nil => intro node h; rw [addManyRegs_nil]; simp; omega
  | cons r rs ih =>
    intro node h
    rw [addManyRegs_cons]
    by_cases hc : cap ≤ node.number_of_registers
    · rw [addMmioRegAds_full cap node _ _ _ hc]
      rw [ih node h]
      simp
      omega
    · rw [Nat.not_le] at hc
      rw [addMmioRegAds_push cap node _ _ _ hc]
      rw [ih _ (by simpa using hc)]
      simp
      omega

theorem addManyRegs_preserved (cap : Nat) (reqs : List RegReq) :
    ∀ (node : GucMmioRegset) (i : Nat), i < node.number_of_registers →
      (addManyRegs cap node reqs).1.registers.getD i ⟨0, 0, 0⟩
        = node.registers.getD i ⟨0, 0, 0⟩ := by
  induction reqs with
  | nil => intro node i _; rfl
  | cons r rs ih =>
    intro node i hi
    rw [addManyRegs_cons]
    by_cases hc : cap ≤ node.number_of_registers
    · rw [addMmioRegAds_full cap node _ _ _ hc]
      exact ih node i hi
    · rw [Nat.not_le] at hc
      rw [addMmioRegAds_push cap node _ _ _ hc]
      rw [ih _ i (by simpa using Nat.lt_succ_of_lt hi)]
      simp only [List.getD_eq_getElem?_getD]
      rw [List.getElem?_set_ne (by omega : node.number_of_registers ≠ i)]

theorem addManyRegs_content (cap : Nat) (reqs : List RegReq) :
    ∀ (node : GucMmioRegset) (j : Nat),
      node.registers.length = cap →
      j < reqs.length →
      node.number_of_registers + j < cap →
      (addManyRegs cap node reqs).1.registers.getD
          (node.number_of_registers + j) ⟨0, 0, 0⟩
        = appliedReg
            (node.registers.getD (node.number_of_registers + j) ⟨0, 0, 0⟩)
            (reqs.getD j ⟨0, 0, 0⟩) := by
  induction reqs with
  | nil => intro node j _ hj _; exact absurd hj (by simp)
  | cons r rs ih =>
    intro node j hlen hj hcap
    have hc : node.number_of_registers < cap := by omega
    rw [addManyRegs_cons, addMmioRegAds_push cap node _ _ _ hc]
    cases j with
    | zero =>
      simp only [Nat.add_zero]
      rw [addManyRegs_preserved cap rs _ node.number_of_registers
        (by simp [Nat.lt_succ_self])]
      simp only [List.getD_eq_getElem?_getD]
      rw [List.getElem?_set_self (by omega : node.number_of_registers < node.registers.length)]
      simp only [List.getElem?_cons_zero, Option.getD_some]
    | succ k =>
      have hstep := ih
        ⟨node.registers.set node.number_of_registers
           (appliedReg (node.registers.getD node.number_of_registers ⟨0, 0, 0⟩)
             ⟨r.reg_addr, r.flags, r.defvalue⟩),
         node.number_of_registers + 1⟩ k
        (by simpa using hlen) (by simpa using hj)
        (by simpa using (by omega : node.number_of_registers + 1 + k < cap))
      have harith : node.number_of_registers + 1 + k = node.number_of_registers + (k + 1) := by
        omega
      rw [harith] at hstep
      rw [hstep]
      simp only [List.getD_eq_getElem?_getD, List.getElem?_cons_succ]
      rw [List.getElem?_set_ne
        (by omega : node.number_of_registers ≠ node.number_of_registers + (k + 1))]

theorem getD_replicate_self (n i : Nat) (x : GucMmioReg) :
    (List.replicate n x).getD i x = x := by
  simp only [List.getD_eq_getElem?_getD, List.getElem?_replicate]
  split <;> rfl

theorem appliedReg_zero (r : RegReq) :
    appliedReg ⟨0, 0, 0⟩ r = ⟨r.reg_addr, r.flags, r.defvalue⟩ := by
  unfold appliedReg
  by_cases h : r.defvalue = 0 <;> simp [h]

theorem addManyRegs_zero_content (cap : Nat) (reqs : List RegReq) (j : Nat)
    (hj : j < reqs.length) (hjc : j < cap) :
    (addManyRegs cap (zeroRegset cap) reqs).1.registers.getD j ⟨0, 0, 0⟩
      = ⟨(reqs.getD j ⟨0, 0, 0⟩).reg_addr, (reqs.getD j ⟨0, 0, 0⟩).flags,
         (reqs.getD j ⟨0, 0, 0⟩).defvalue⟩ := by
  have h := addManyRegs_content cap reqs (zeroRegset cap) j
    (by simp [zeroRegset]) hj (by simp only [zeroRegset, Nat.zero_add]; exact hjc)
  have hz : (zeroRegset cap).number_of_registers = 0 := rfl
  rw [hz, Nat.zero_add] at h
  have hrep : (zeroRegset cap).registers.getD j ⟨0, 0, 0⟩ = ⟨0, 0, 0⟩ :=
    getD_replicate_self cap j ⟨0, 0, 0⟩
  rw [hrep, appliedReg_zero] at h
  exact h

/-! ## Claim theorems about the register save list -/

/-- C4: starting from a fresh zero-filled list of capacity `cap`,
performing `cap + 1` add calls leaves exactly `cap` entries whose
offset, flags and value fields are those of the first `cap` successful
insertions in insertion order, the count field equals `cap`, exactly one
truncation condition is reported; and an add at capacity is a no-op
returning the node unchanged (no failure, no entry modified). -/
theorem regset_capacity_overflow (cap : Nat) (reqs : List RegReq)
    (hlen : reqs.length = cap + 1) :
    (addManyRegs cap (zeroRegset cap) reqs).1.number_of_registers = cap
  ∧ (addManyRegs cap (zeroRegset cap) reqs).2 = 1
  ∧ (∀ i, i < cap →
      (addManyRegs cap (zeroRegset cap) reqs).1.registers.getD i ⟨0, 0, 0⟩
        = ⟨(reqs.getD i ⟨0, 0, 0⟩).reg_addr, (reqs.getD i ⟨0, 0, 0⟩).flags,
           (reqs.getD i ⟨0, 0, 0⟩).defvalue⟩)
  ∧ (∀ (node : GucMmioRegset) (a f d : Nat), cap ≤ node.number_of_registers →
      addMmioRegAds cap node a f d = (node, true)) := by
  refine ⟨?_, ?_, ?_, fun node a f d h => addMmioRegAds_full cap node a f d h⟩
  · rw [addManyRegs_count cap reqs (zeroRegset cap) (Nat.zero_le cap)]
    have hz : (zeroRegset cap).number_of_registers = 0 := rfl
    rw [hz, hlen]
    omega
  · rw [addManyRegs_truncs cap reqs (zeroRegset cap) (Nat.zero_le cap)]
    have hz : (zeroRegset cap).number_of_registers = 0 := rfl
    rw [hz, hlen]
    omega
  · intro i hi
    exact addManyRegs_zero_content cap reqs i (by omega) hi

/-- C4 witness at capacity 2 with 3 insertions. -/
theorem regset_capacity_overflow_witness :
    ([⟨1, 2, 3⟩, ⟨4, 5, 0⟩, ⟨6, 7, 8⟩] : List RegReq).length = 2 + 1
  ∧ (addManyRegs 2 (zeroRegset 2) [⟨1, 2, 3⟩, ⟨4, 5, 0⟩, ⟨6, 7, 8⟩]).1.number_of_registers = 2
  ∧ (addManyRegs 2 (zeroRegset 2) [⟨1, 2, 3⟩, ⟨4, 5, 0⟩, ⟨6, 7, 8⟩]).2 = 1
  ∧ (addManyRegs 2 (zeroRegset 2) [⟨1, 2, 3⟩, ⟨4, 5, 0⟩, ⟨6, 7, 8⟩]).1.registers.getD 1 ⟨0, 0, 0⟩
      = ⟨4, 5, 0⟩ := by
  have h := regset_capacity_overflow 2 [⟨1, 2, 3⟩, ⟨4, 5, 0⟩, ⟨6, 7, 8⟩] (by decide)
  exact ⟨by decide, h.1, h.2.1, by
    have h1 := h.2.2.1 1 (by decide)
    rw [h1]
    decide⟩

/-- C9: a successful add stores offset and flags, but assigns the value
field only when the supplied default value is nonzero; with a default
value of 0 the entry's value field retains whatever it previously held. -/
theorem addMmioRegAds_value_write (cap : Nat) (node : GucMmioRegset)
    (a f d : Nat) (h : node.number_of_registers < cap)
    (hlen : node.registers.length = cap) :
    (addMmioRegAds cap node a f d).1.registers.getD
        node.number_of_registers ⟨0, 0, 0⟩
      = ⟨a, f,
         if d ≠ 0 then d
         else (node.registers.getD node.number_of_registers ⟨0, 0, 0⟩).value⟩ := by
  rw [addMmioRegAds_push cap node a f d h]
  simp only [List.getD_eq_getElem?_getD]
  rw [List.getElem?_set_self (by omega : node.number_of_registers < node.registers.length)]
  rfl

/-- C9 witness: a call with default value 0 on a slot whose stale value
field holds 7 keeps the 7. -/
theorem addMmioRegAds_value_write_witness :
    (addMmioRegAds 1 ⟨[⟨9, 9, 7⟩], 0⟩ 3 4 0).1.registers.getD 0 ⟨0, 0, 0⟩
      = ⟨3, 4, 7⟩ := by
  have h := addMmioRegAds_value_write 1 ⟨[⟨9, 9, 7⟩], 0⟩ 3 4 0 (by decide) (by decide)
  rw [h]
  decide

/-- C7: for each engine the builder appends register entries in exactly
this order: (1) the hardware status page register with
save-current-value, (2) the ring/execution-mode register with
save-default-value whose value is the live value at build time OR'd
with the execution-list-enable bit, the interrupt-steering bit and the
0xFFFF<<16 mask bits, (3) the interrupt-mask register with
save-current-value, and (4) only for the render engine, each
caller-supplied workaround pair with save-default-value. -/
theorem engine_reg_list_order (cap : Nat) (e : EngineBuild)
    (hcap : (engineRegRequests e).length ≤ cap) :
    (buildEngineRegset cap e).1.number_of_registers
        = 3 + (if e.is_rcs then e.guc_workarounds.length else 0)
  ∧ (buildEngineRegset cap e).2 = 0
  ∧ (buildEngineRegset cap e).1.registers.getD 0 ⟨0, 0, 0⟩
        = ⟨RING_HWS_PGA e.mmio_base,
           GUC_REGSET_ENGINERESET ||| GUC_REGSET_SAVE_CURRENT_VALUE, 0⟩
  ∧ (buildEngineRegset cap e).1.registers.getD 1 ⟨0, 0, 0⟩
        = ⟨RING_MODE_GEN7 e.mmio_base,
           GUC_REGSET_ENGINERESET ||| GUC_REGSET_SAVE_DEFAULT_VALUE,
           e.ring_mode_value ||| GFX_RUN_LIST_ENABLE ||| GFX_INTERRUPT_STEERING |||
             (0xFFFF <<< 16)⟩
  ∧ (buildEngineRegset cap e).1.registers.getD 2 ⟨0, 0, 0⟩
        = ⟨RING_IMR e.mmio_base,
           GUC_REGSET_ENGINERESET ||| GUC_REGSET_SAVE_CURRENT_VALUE, 0⟩
  ∧ (∀ k, e.is_rcs = true → k < e.guc_workarounds.length →
      (buildEngineRegset cap e).1.registers.getD (3 + k) ⟨0, 0, 0⟩
        = ⟨(e.guc_workarounds.getD k (0, 0)).1,
           GUC_REGSET_ENGINERESET ||| GUC_REGSET_SAVE_DEFAULT_VALUE,
           (e.guc_workarounds.getD k (0, 0)).2⟩)
  ∧ (e.is_rcs = false →
      (buildEngineRegset cap e).1.number_of_registers = 3) := by
  have hlen3 : (engineRegRequests e).length
      = 3 + (if e.is_rcs then e.guc_workarounds.length else 0) := by
    by_cases h : e.is_rcs
    · simp [engineRegRequests, h]
      omega
    · simp [engineRegRequests, h]
  unfold buildEngineRegset
  have hcount : (addManyRegs cap (zeroRegset cap) (engineRegRequests e)).1.number_of_registers
      = 3 + (if e.is_rcs then e.guc_workarounds.length else 0) := by
    rw [addManyRegs_count cap _ (zeroRegset cap) (Nat.zero_le cap)]
    have hz : (zeroRegset cap).number_of_registers = 0 := rfl
    rw [hz, hlen3]
    omega
  refine ⟨hcount, ?_, ?_, ?_, ?_, ?_, ?_⟩
  · rw [addManyRegs_truncs cap _ (zeroRegset cap) (Nat.zero_le cap)]
    have hz : (zeroRegset cap).number_of_registers = 0 := rfl
    rw [hz]
    omega
  · rw [addManyRegs_zero_content cap _ 0 (by omega) (by omega)]
    simp [engineRegRequests]
  · rw [addManyRegs_zero_content cap _ 1 (by omega) (by omega)]
    simp [engineRegRequests]
  · rw [addManyRegs_zero_content cap _ 2 (by omega) (by omega)]
    simp [engineRegRequests]
  · intro k hrc hk
    have hjlt : 3 + k < (engineRegRequests e).length := by
      rw [hlen3, hrc]
      simp
      omega
    rw [addManyRegs_zero_content cap _ (3 + k) hjlt (by omega)]
    have hreq : (engineRegRequests e).getD (3 + k) ⟨0, 0, 0⟩
        = ⟨(e.guc_workarounds.getD k (0, 0)).1,
           GUC_REGSET_ENGINERESET ||| GUC_REGSET_SAVE_DEFAULT_VALUE,
           (e.guc_workarounds.getD k (0, 0)).2⟩ := by
      have h3 : 3 + k = k + 3 := by omega
      rw [h3]
      simp only [engineRegRequests, hrc, if_true, List.getD_cons_succ]
      rw [List.getD_eq_getElem _ _ (by simpa using hk), List.getElem_map,
        List.getD_eq_getElem _ _ hk]
    rw [hreq]
  · intro hrc
    rw [hcount, hrc]
    simp

/-! ## Claim theorems about addresses, sizes, policies and layout -/

/-- C1 counterexample: at pinned context address 0 the resume address the
code stores is one page (4096), not one page plus 80 dwords (4416) as
the claim states. -/
theorem golden_context_skip_cex :
    golden_context_lrca 0 = 4096 ∧ resume_address_spec 0 = 4416 ∧
    golden_context_lrca 0 ≠ resume_address_spec 0 := by decide

/-- C1 amended: for every pinned default-context address, the resume
address stored in the blob is the address plus exactly
`LRC_HEADER_PAGES` pages (one page); no 80-dword term is added (that
term enters only `skipped_size`, i.e. the restorable state size). -/
theorem golden_context_skip_one_page (addr : Nat)
    (h : addr + LRC_HEADER_PAGES * PAGE_SIZE < U32_MOD) :
    golden_context_lrca addr = addr + LRC_HEADER_PAGES * PAGE_SIZE
  ∧ golden_context_lrca addr ≠ (addr + (PAGE_SIZE + LR_HW_CONTEXT_SIZE)) % U32_MOD := by
  unfold golden_context_lrca skipped_offset LRC_HEADER_PAGES PAGE_SIZE U32_MOD
    LR_HW_CONTEXT_SIZE at *
  constructor
  · omega
  · omega

/-- C1 amended witness at address 2^24. -/
theorem golden_context_skip_one_page_witness :
    golden_context_lrca 16777216 = 16777216 + LRC_HEADER_PAGES * PAGE_SIZE := by
  have h := golden_context_skip_one_page 16777216 (by decide)
  exact h.1

/-- C3 counterexample: at a context size of 20 pages (81920 bytes) the
code stores 81920 - 4416 = 77504, while the claim's formula (subtracting
additionally one header page) yields 73408. -/
theorem eng_state_size_cex :
    eng_state_size 81920 = 77504 ∧ eng_state_size_spec 81920 = 73408 ∧
    eng_state_size 81920 ≠ eng_state_size_spec 81920 := by decide

/-- C3 amended: for every context size at least `skipped_size` and below
2^32, the stored restorable state size is the context size minus
(`LRC_PPHWSP_SZ` pages plus 80 dwords); no additional header page is
subtracted. -/
theorem eng_state_size_formula (context_size : Nat)
    (hlo : skipped_size ≤ context_size) (hhi : context_size < U32_MOD) :
    eng_state_size context_size
      = context_size - (LRC_PPHWSP_SZ * PAGE_SIZE + LR_HW_CONTEXT_SIZE) := by
  unfold eng_state_size skipped_size LRC_PPHWSP_SZ PAGE_SIZE U32_MOD
    LR_HW_CONTEXT_SIZE at *
  omega

/-- C3 amended witness at a 20-page context. -/
theorem eng_state_size_formula_witness :
    eng_state_size 81920 = 81920 - (LRC_PPHWSP_SZ * PAGE_SIZE + LR_HW_CONTEXT_SIZE) := by
  exact eng_state_size_formula 81920 (by decide) (by decide)

/-- C5 counterexample: `guc_policies_init` does not write the cells
before the table-level fields; its first store is the table-level
`dpc_promote_time`, refuting the claimed ordering. -/
theorem policies_init_order_cex :
    cellsBeforeTableLevel guc_policies_init_trace = false := by decide

/-- C5 amended: `guc_policies_init` first sets the two table-level
fields (promotion time, max work items), then populates every
(priority, engine) cell with the fixed defaults and flags=0, and sets
the validity flag only as the final store - so validity implies every
cell and both table-level fields are populated. -/
theorem policies_init_valid_last :
    policiesPublishAfterComplete guc_policies_init_trace = true
  ∧ (guc_policies_init_trace.take 2).all isTableLevelWrite = true
  ∧ ((guc_policies_init_trace.drop 2).dropLast.all isCellWrite) = true := by decide

/-- C6 counterexample: with any positive struct sizes (here realistic
ones: a 16-byte ads header, 1024-byte policies, 4096-byte reg state,
one-page buffer, base 0) the three stored pointers are not strictly
increasing in the order the claim lists them, because the register-state
buffer lies after the whitelist+save-list region in the blob. -/
theorem ads_offsets_listed_order_cex :
    adsOffsetsIncreasingAsListed 0 ⟨16, 1024, 4096, 4096⟩ = false := by decide

/-- C6 amended: in blob layout order - policy table, then
whitelist+save-list region (`reg_state`), then register-state buffer -
the stored offsets are strictly increasing (for positive sub-structure
sizes), each sub-structure's [offset, offset+size) interval lies within
the page-aligned backing region, and no sub-structure overlaps the next. -/
theorem ads_layout_invariant (base : Nat) (s : AdsBlobSizes)
    (hpol : 0 < s.policies_bytes) (hreg : 0 < s.reg_state_bytes) :
    scheduler_policies_ptr base s < reg_state_addr_ptr base s
  ∧ reg_state_addr_ptr base s < reg_state_buffer_ptr base s
  ∧ off_policies s + s.policies_bytes ≤ off_reg_state s
  ∧ off_reg_state s + s.reg_state_bytes ≤ off_reg_state_buffer s
  ∧ off_policies s + s.policies_bytes ≤ region_bytes s
  ∧ off_reg_state s + s.reg_state_bytes ≤ region_bytes s
  ∧ off_reg_state_buffer s + s.reg_state_buffer_bytes ≤ region_bytes s := by
  have halign : blob_bytes s ≤ region_bytes s := by
    unfold region_bytes PAGE_ALIGN PAGE_SIZE
    omega
  unfold blob_bytes at halign
  unfold scheduler_policies_ptr reg_state_addr_ptr reg_state_buffer_ptr
    off_policies off_reg_state off_reg_state_buffer at *
  omega

/-- C6 amended witness at base 0 with realistic sizes. -/
theorem ads_layout_invariant_witness :
    scheduler_policies_ptr 0 ⟨16, 1024, 4096, 4096⟩
        < reg_state_addr_ptr 0 ⟨16, 1024, 4096, 4096⟩
  ∧ reg_state_addr_ptr 0 ⟨16, 1024, 4096, 4096⟩
        < reg_state_buffer_ptr 0 ⟨16, 1024, 4096, 4096⟩
  ∧ off_reg_state_buffer ⟨16, 1024, 4096, 4096⟩ + 4096
        ≤ region_bytes ⟨16, 1024, 4096, 4096⟩ := by
  have h := ads_layout_invariant 0 ⟨16, 1024, 4096, 4096⟩ (by decide) (by decide)
  exact ⟨h.1, h.2.1, h.2.2.2.2.2.2⟩

/-- C7 witness: a render engine with two workaround pairs and capacity 16. -/
theorem engine_reg_list_order_witness :
    (buildEngineRegset 16 ⟨0x2000, true, 5, [(100, 0), (200, 7)]⟩).1.number_of_registers = 5
  ∧ (buildEngineRegset 16 ⟨0x2000, true, 5, [(100, 0), (200, 7)]⟩).1.registers.getD 0 ⟨0, 0, 0⟩
      = ⟨0x2080, 10, 0⟩
  ∧ (buildEngineRegset 16 ⟨0x2000, true, 5, [(100, 0), (200, 7)]⟩).1.registers.getD 3 ⟨0, 0, 0⟩
      = ⟨100, 6, 0⟩
  ∧ (buildEngineRegset 16 ⟨0x2000, true, 5, [(100, 0), (200, 7)]⟩).1.registers.getD 4 ⟨0, 0, 0⟩
      = ⟨200, 6, 7⟩ := by
  have h := engine_reg_list_order 16 ⟨0x2000, true, 5, [(100, 0), (200, 7)]⟩ (by decide)
  refine ⟨by rw [h.1]; decide, by rw [h.2.2.1]; decide, ?_, ?_⟩
  · have h3 := h.2.2.2.2.2.1 0 rfl (by decide)
    rw [h3]
    decide
  · have h4 := h.2.2.2.2.2.1 1 rfl (by decide)
    rw [h4]
    decide

/-! ## Claim theorems about the isolation harness -/

theorem igt_check_engine_ne_zero (err s : Int) (b a : Nat) :
    igt_check_engine err s b a ≠ 0 ↔ (err ≠ 0 ∨ s ≠ 0 ∨ b ≠ a) := by
  unfold igt_check_engine eioErr
  by_cases hba : b = a
  · simp only [hba, ne_eq, not_true, if_false, ite_not]
    by_cases hs : s = 0
    · simp [hs]
    · by_cases he : err = 0
      · simp [hs, he]
      · simp [hs, he]
  · simp [hba]

theorem igt_unwind_loop_nil (target : Nat) (stopRets : Nat → Int)
    (before after : Nat → Nat) (err : Int) :
    igt_unwind_loop target stopRets before after [] err = err := rfl

theorem igt_unwind_loop_cons (target : Nat) (stopRets : Nat → Int)
    (before after : Nat → Nat) (t : Nat) (ts : List Nat) (err : Int) :
    igt_unwind_loop target stopRets before after (t :: ts) err
      = igt_unwind_loop target stopRets before after ts
          (if t = target then err
           else igt_check_engine err (stopRets t) (before t) (after t)) := rfl

theorem igt_unwind_loop_ne_zero (target : Nat) (stopRets : Nat → Int)
    (before after : Nat → Nat) :
    ∀ (l : List Nat) (err : Int),
      igt_unwind_loop target stopRets before after l err ≠ 0
        ↔ (err ≠ 0 ∨ ∃ t ∈ l, t ≠ target ∧ (stopRets t ≠ 0 ∨ before t ≠ after t)) := by
  intro l
  induction l with
  | nil =>
    intro err
    simp [igt_unwind_loop_nil]
  | cons t ts ih =>
    intro err
    rw [igt_unwind_loop_cons]
    by_cases ht : t = target
    · rw [if_pos ht, ih]
      subst ht
      constructor
      · rintro (he | ⟨u, hu, hP⟩)
        · exact Or.inl he
        · exact Or.inr ⟨u, List.mem_cons_of_mem _ hu, hP⟩
      · rintro (he | ⟨u, hu, hne, hcond⟩)
        · exact Or.inl he
        · rcases List.mem_cons.mp hu with rfl | hu2
          · exact absurd rfl hne
          · exact Or.inr ⟨u, hu2, hne, hcond⟩
    · rw [if_neg ht, ih, igt_check_engine_ne_zero]
      constructor
      · rintro ((he | hcond) | ⟨u, hu, hP⟩)
        · exact Or.inl he
        · exact Or.inr ⟨t, List.mem_cons_self t ts, ht, hcond⟩
        · exact Or.inr ⟨u, List.mem_cons_of_mem _ hu, hP⟩
      · rintro (he | ⟨u, hu, hne, hcond⟩)
        · exact Or.inl (Or.inl he)
        · rcases List.mem_cons.mp hu with rfl | hu2
          · exact Or.inl (Or.inr hcond)
          · exact Or.inr ⟨u, hu2, hne, hcond⟩

/-- C2 counterexample: target engine 0 of 2, one completed reset
attempt, target counter unchanged (5 to 5), non-target counter
unchanged, global counter unchanged.  The code reports success (0),
while the claim's reading demands a reported violation (the target
counter did not increase by the number of completed resets, nor did the
global counter). -/
theorem igt_report_claim_cex :
    igt_report 0 2 0 (fun _ => 0) (fun t => if t = 0 then 5 else 3)
        (fun t => if t = 0 then 5 else 3) 7 7 = 0
  ∧ igt_report_claim 0 2 (fun t => if t = 0 then 5 else 3)
        (fun t => if t = 0 then 5 else 3) 7 7 1 = true := by
  exact ⟨rfl, rfl⟩

/-- C2 amended: after joining, the harness reports a failure exactly
when the reset phase failed, some non-target worker returned an error,
some non-target engine's reset counter changed, or the global (full
device) reset counter changed at all; the target engine's own counter is
not examined. -/
theorem igt_report_characterization (target numEngines : Nat) (errIn : Int)
    (stopRets : Nat → Int) (before after : Nat → Nat) (gB gA : Nat) :
    igt_report target numEngines errIn stopRets before after gB gA ≠ 0
      ↔ (errIn ≠ 0
         ∨ (∃ t ∈ List.range numEngines, t ≠ target
              ∧ (stopRets t ≠ 0 ∨ before t ≠ after t))
         ∨ gB ≠ gA) := by
  unfold igt_report
  by_cases hg : gB = gA
  · rw [if_neg (by simp [hg])]
    rw [igt_unwind_loop_ne_zero]
    simp [hg]
  · rw [if_pos hg]
    constructor
    · intro _
      exact Or.inr (Or.inr hg)
    · intro _
      decide

/-! ## Claim theorems about the worker double buffer -/

theorem workerRun_eq_expected : ∀ n, workerRun n = workerExpected n := by
  intro n
  induction n with
  | zero => rfl
  | succ n ih =>
    rw [workerRun, ih]
    cases n with
    | zero => rfl
    | succ m =>
      cases m with
      | zero => rfl
      | succ k =>
        rcases Nat.mod_two_eq_zero_or_one k with hm | hm
        · have h1 : (k + 1) % 2 = 1 := by omega
          have h2 : (k + 2) % 2 = 0 := by omega
          simp [workerIter, workerSubmit, workerWait, workerExpected, h1, h2]
        · have h1 : (k + 1) % 2 = 0 := by omega
          have h2 : (k + 2) % 2 = 1 := by omega
          simp [workerIter, workerSubmit, workerWait, workerExpected, h1, h2]

/-- C8 counterexample: in iteration 2 the worker submits its new request
into the slot before waiting on the slot's previous occupant, so right
after `i915_request_add` three of its submissions (requests 0, 1 and 2)
are outstanding at once, exceeding the claimed bound of 2; the previous
occupant (request 0) is still outstanding at that point. -/
theorem worker_outstanding_cex :
    midOutstanding 2 = 3
  ∧ (workerSubmit (workerRun 2)).2 = some 0
  ∧ 0 ∈ (workerSubmit (workerRun 2)).1.outstanding := by decide

/-- C8 amended: a worker's outstanding submissions never exceed 3, and
the momentary value 3 occurs only between submitting into a slot and the
immediately following wait on that slot's previous occupant (the request
submitted two iterations earlier); at every iteration boundary at most 2
submissions are outstanding. -/
theorem worker_outstanding_bounds :
    (∀ n, midOutstanding n ≤ 3 ∧ endOutstanding n ≤ 2)
  ∧ (∀ n, 2 ≤ n → (workerSubmit (workerRun n)).2 = some (n - 2)) := by
  constructor
  · intro n
    constructor
    · unfold midOutstanding
      rw [workerRun_eq_expected]
      cases n with
      | zero => decide
      | succ m =>
        cases m with
        | zero => decide
        | succ k => simp [workerExpected, workerSubmit]
    · unfold endOutstanding
      rw [workerRun_eq_expected]
      cases n with
      | zero => decide
      | succ m => simp [workerExpected]
  · intro n hn
    obtain ⟨k, rfl⟩ : ∃ k, n = k + 2 := ⟨n - 2, by omega⟩
    rw [workerRun_eq_expected]
    rcases Nat.mod_two_eq_zero_or_one k with hm | hm
    · have h1 : (k + 1) % 2 = 1 := by omega
      have h2 : (k + 2) % 2 = 0 := by omega
      simp [workerExpected, workerSubmit, h1, h2]
    · have h1 : (k + 1) % 2 = 0 := by omega
      have h2 : (k + 2) % 2 = 1 := by omega
      simp [workerExpected, workerSubmit, h1, h2]

/-- C8 amended witness at iteration 5. -/
theorem worker_outstanding_bounds_witness :
    midOutstanding 5 ≤ 3 ∧ endOutstanding 5 ≤ 2
  ∧ (workerSubmit (workerRun 5)).2 = some 3 := by
  have h := worker_outstanding_bounds
  exact ⟨(h.1 5).1, (h.1 5).2, h.2 5 (by decide)⟩

/-! ## Claim theorems about reset-support gating -/

/-- C10: without per-engine reset support `igt_active_engines` returns
success (0) immediately in both the reset-enabled and the reset-disabled
mode, with no worker spawned, no reset invoked and no counter read
(empty event trace); and without GPU reset support the selftest entry
point returns success immediately likewise. -/
theorem harness_requires_reset_support (p : Platform) (env : HarnessEnv) :
    (p.has_reset_engine = false →
      igt_active_engines p true env = (0, [])
      ∧ igt_active_engines p false env = (0, []))
  ∧ (p.has_gpu_reset = false →
      intel_shit_live_selftests p env = (0, [])) := by
  constructor
  · intro h
    constructor
    · unfold igt_active_engines
      rw [h]
      rfl
    · unfold igt_active_engines
      rw [h]
      rfl
  · intro h
    unfold intel_shit_live_selftests
    rw [h]
    rfl

/-- C10 witness on a platform with neither reset capability. -/
theorem harness_requires_reset_support_witness :
    igt_active_engines ⟨false, false⟩ true
        ⟨2, fun _ => 1, fun _ _ => 0, fun _ _ => 0, fun _ _ => 0,
         fun _ => 0, fun _ => 0, false⟩ = (0, [])
  ∧ intel_shit_live_selftests ⟨false, false⟩
        ⟨2, fun _ => 1, fun _ _ => 0, fun _ _ => 0, fun _ _ => 0,
         fun _ => 0, fun _ => 0, false⟩ = (0, []) := by
  have h := harness_requires_reset_support ⟨false, false⟩
    ⟨2, fun _ => 1, fun _ _ => 0, fun _ _ => 0, fun _ _ => 0,
     fun _ => 0, fun _ => 0, false⟩
  exact ⟨(h.1 rfl).1, h.2 rfl⟩

end I915
